import Mathlib

/-!
Verification of the TA-Scheduler scheduling core against its specification.

The definitions below are a shallow embedding of the Python source:
`src/utils/time_utils.py`, `src/core/data_parser.py` and
`src/core/scheduler.py`.  Pure functions become Lean functions; pandas
DataFrames become explicit tables (lists of rows); the external CP-SAT
backend is modelled by its contract: any solution it returns satisfies
every constraint added to the model, which is captured by the
`ValidSolution` predicate listing exactly the constraints built in
`solve_schedule`.
-/

namespace TASched

/-- ASCII lowercasing of a string, character by character (Python
`str.lower` on the inputs at hand). -/
def strToLower (s : String) : String :=
  ⟨s.data.map Char.toLower⟩

/-- Accumulates a decimal digit list into a number (the core of Python
`int` on a digit string). -/
def digitsToNat : List Char → Nat → Nat
  | [], acc => acc
  | c :: t, acc => digitsToNat t (acc * 10 + (c.toNat - 48))

/-- Strips leading and trailing whitespace from a character list. -/
def trimChars (cs : List Char) : List Char :=
  ((cs.dropWhile Char.isWhitespace).reverse.dropWhile Char.isWhitespace).reverse

/-- Embeds Python `int` applied to a string: optional sign followed by
digits after stripping surrounding whitespace; anything else raises
(`none`). -/
def strToInt? (s : String) : Option Int :=
  match trimChars s.data with
  | [] => none
  | c :: t =>
    if c == Char.ofNat 45 then
      if !t.isEmpty && t.all Char.isDigit then some (-(digitsToNat t 0)) else none
    else if c == Char.ofNat 43 then
      if !t.isEmpty && t.all Char.isDigit then some (digitsToNat t 0) else none
    else if (c :: t).all Char.isDigit then some (digitsToNat (c :: t) 0)
    else none

/-- Embeds `time_utils.convert_hour`.  The Python function receives the hour
as a string and first applies `int`; here the caller supplies the already
converted integer.  AM: 12 becomes 0, others unchanged; PM: 12 stays 12,
others gain 12. -/
def convert_hour (h : Int) (ampm : String) : Int :=
  if strToLower ampm == "am" then
    if h == 12 then 0 else h
  else
    if h == 12 then 12 else h + 12

/-- Embeds `time_utils.convert_24_to_12_hour`: 24-hour integer to a 12-hour
label such as "8am" or "12pm". -/
def convert_24_to_12_hour (h : Int) : String :=
  if h == 0 then "12am"
  else if h < 12 then toString h ++ "am"
  else if h == 12 then "12pm"
  else toString (h - 12) ++ "pm"

/-- A validated requirement slot, as produced by `parse_requirements`:
keys `id`, `section` (field `sect`), `day`, `start`, `end` (field `stop`),
`required`. -/
structure Slot where
  id : Nat
  sect : String
  day : String
  start : Int
  stop : Int
  required : Int
  deriving DecidableEq, Repr

/-- Embeds `time_utils.slots_overlap`: same day and
`start1 < end2 and start2 < end1`. -/
def slots_overlap (s1 s2 : Slot) : Bool :=
  if s1.day != s2.day then false
  else decide (s1.start < s2.stop) && decide (s2.start < s1.stop)

/-- Embeds `re.sub(r"\s+", "", s)`: remove every whitespace character. -/
def stripWS (s : String) : String :=
  ⟨s.data.filter (fun c => !c.isWhitespace)⟩

/-- Tests whether the first character list is an initial segment of the
second. -/
def charsStart : List Char → List Char → Bool
  | [], _ => true
  | _ :: _, [] => false
  | a :: as, b :: bs => a == b && charsStart as bs

/-- Tests whether the first character list occurs contiguously inside the
second. -/
def charsIn (pat : List Char) : List Char → Bool
  | [] => charsStart pat []
  | c :: t => charsStart pat (c :: t) || charsIn pat t

/-- Embeds the Python substring test `pat in hay`. -/
def strIn (pat hay : String) : Bool :=
  charsIn pat.data hay.data

/-- One row of the availability-responses DataFrame: the `Name` cell plus
the remaining cells as an association list from column header to value
(`none` models a NaN / empty cell). -/
structure RespRow where
  name : String
  cells : List (String × Option String)
  deriving Repr

/-- The availability-responses DataFrame: its column headers and rows. -/
structure RespTable where
  cols : List String
  rows : List RespRow
  deriving Repr

/-- Cell lookup `row[col]` on a response row; an absent key behaves as
NaN. -/
def getCell (r : RespRow) (col : String) : Option String :=
  match r.cells.find? (fun p => p.1 == col) with
  | some p => p.2
  | none => none

/-- The normalized target pattern `is_available` builds for one hour:
`re.sub(r"\s+", "", f"[{cur}to{next}]")` with 12-hour labels. -/
def hourTarget (h : Int) : String :=
  stripWS ("[" ++ convert_24_to_12_hour h ++ "to" ++ convert_24_to_12_hour (h + 1) ++ "]")

/-- One iteration of the hour loop in `data_parser.is_available`: find the
first column whose whitespace-stripped header contains the target range; a
missing column or a NaN cell leaves the hour available; otherwise the hour
is unavailable iff the day occurs in the cell text. -/
def hourAvailable (cols : List String) (row : RespRow) (day : String) (h : Int) : Bool :=
  match cols.find? (fun col => strIn (hourTarget h) (stripWS col)) with
  | none => true
  | some col =>
    match getCell row col with
    | none => true
    | some v => !(strIn day v)

/-- The hours `start, start+1, …, end-1` visited by the while loop of
`is_available` (empty when `end ≤ start`). -/
def hoursInSpan (s e : Int) : List Int :=
  (List.range (e - s).toNat).map (fun i => s + i)

/-- Embeds `data_parser.is_available`: `False` when the TA has no response
row; otherwise every constituent hour of `[start, end)` must be available
on the given day. -/
def is_available (taName day : String) (startH endH : Int) (t : RespTable) : Bool :=
  match t.rows.find? (fun r => r.name == taName) with
  | none => false
  | some row => (hoursInSpan startH endH).all (fun h => hourAvailable t.cols row day h)

/-- A pandas cell value as seen by `parse_requirements`: a numeric value
(Python ints and floats are both modelled by `Int`), a NaN (an empty cell —
Python treats it as a float, so `isinstance(v, (int, float))` is true, yet
every comparison with it is false), or a non-numeric string. -/
inductive PVal where
  | num (n : Int)
  | nan
  | str (s : String)
  deriving DecidableEq, Repr

/-- Python `isinstance(v, (int, float))`. -/
def PVal.isNum : PVal → Bool
  | .num _ => true
  | .nan => true
  | .str _ => false

/-- Python `a < b` restricted to the operands `parse_requirements` compares
(both already known numeric); comparisons against NaN are false. -/
def PVal.ltb : PVal → PVal → Bool
  | .num a, .num b => decide (a < b)
  | _, _ => false

/-- Python `int(v)`: succeeds on numbers, raises `ValueError` (here `none`)
on NaN and on non-integer strings. -/
def pvalToInt : PVal → Option Int
  | .num n => some n
  | .nan => none
  | .str s => strToInt? s

/-- The numeric payload of a `PVal` (only used once `isNum` and an order
test have succeeded, so the default is unreachable there). -/
def PVal.toNum : PVal → Int
  | .num n => n
  | _ => 0

/-- One row of the requirements DataFrame: columns `Day`, `Start`, `End`,
`Required` and the optional `Lab Section` label. -/
structure ReqRow where
  day : String
  start : PVal
  stop : PVal
  required : PVal
  sect : String
  deriving DecidableEq, Repr

/-- The loop body of `data_parser.parse_requirements`, processing rows in
order with `idx` the running iterrows index.  `int` applied to the Required cell may
raise, which aborts the whole parse with an error; a zero requirement or a
non-numeric / unordered time pair only skips the row. -/
def parseReqGo (idx : Nat) : List ReqRow → Except String (List Slot)
  | [] => .ok []
  | r :: rest =>
    match pvalToInt r.required with
    | none => .error "invalid literal for int"
    | some req =>
      if req == 0 then parseReqGo (idx + 1) rest
      else if !(r.start.isNum && r.stop.isNum && r.start.ltb r.stop) then
        parseReqGo (idx + 1) rest
      else
        match parseReqGo (idx + 1) rest with
        | .error e => .error e
        | .ok slots =>
          .ok (⟨idx, r.sect, r.day, r.start.toNum, r.stop.toNum, req⟩ :: slots)

/-- Embeds `data_parser.parse_requirements` from the point where the
DataFrame rows are iterated (file existence and the structural-column check
happen before this loop and are independent of row contents). -/
def parse_requirements (rows : List ReqRow) : Except String (List Slot) :=
  parseReqGo 0 rows

/-- Names the row-level keep policy that `parse_requirements` actually
implements: `int(Required)` succeeds and is nonzero, both times are
numeric, and `start < end`. -/
def rowKept (r : ReqRow) : Bool :=
  match pvalToInt r.required with
  | none => false
  | some req => req != 0 && r.start.isNum && r.stop.isNum && r.start.ltb r.stop

/-- Holds when `int(Required)` evaluates without raising. -/
def rowConvertible (r : ReqRow) : Bool :=
  (pvalToInt r.required).isSome

/-- The slot a kept row at index `idx` turns into. -/
def rowToSlot (idx : Nat) (r : ReqRow) : Slot :=
  ⟨idx, r.sect, r.day, r.start.toNum, r.stop.toNum, (pvalToInt r.required).getD 0⟩

/-! ### The scheduler (`src/core/scheduler.py`) -/

/-- A solved variable assignment handed back by the CP-SAT backend:
the boolean `x[ta_idx][slot_id]` assignment variables, the integer
`shortage[slot_id]` variables, and the boolean `lab_indicator` variables
keyed by TA index and section label. -/
structure Solution where
  x : Nat → Nat → Bool
  shortage : Nat → Int
  labInd : Nat → String → Bool

/-- Integer value of a boolean CP variable. -/
def b2i (b : Bool) : Int := if b then 1 else 0

/-- The `sched` list: the employees filtered to those with a row in the
responses DataFrame. -/
def schedOf (employees : List String) (t : RespTable) : List String :=
  employees.filter (fun e => (t.rows.map (fun r => r.name)).contains e)

/-- The distinct day labels of a slot list, as grouped by
`get_slots_by_day` (first-occurrence order). -/
def daysOf (slots : List Slot) : List String :=
  (slots.map (fun s => s.day)).dedup

/-- The `unique_labs` list built per TA: the set of section labels over
all slots, with first-occurrence order standing in for Python set order. -/
def uniqueLabs (slots : List Slot) : List String :=
  (slots.map (fun s => s.sect)).dedup

/-- The contract of the CP-SAT backend applied to the model built by
`solve_schedule`: a returned (optimal or feasible) solution satisfies every
constraint the model contains.  The eight conjuncts are, in source order:
availability forcing (`model.Add(x == 0)`), shortage variable bounds
(`NewIntVar(0, required)`), per-slot coverage balance, per-TA total hour
caps, pairwise same-day overlap exclusion, per-TA per-day hour caps, lab
indicator forcing (`x <= lab_indicators[lab]`), and the per-TA distinct-lab
cap. -/
def ValidSolution (employees : List String) (t : RespTable) (maxHours : String → Int)
    (slots : List Slot) (maxDaily maxLabs : Int) (sol : Solution) : Prop :=
  (∀ i, (hi : i < (schedOf employees t).length) → ∀ s ∈ slots,
    is_available ((schedOf employees t).get ⟨i, hi⟩) s.day s.start s.stop t = false →
    sol.x i s.id = false) ∧
  (∀ s ∈ slots, 0 ≤ sol.shortage s.id ∧ sol.shortage s.id ≤ s.required) ∧
  (∀ s ∈ slots,
    ((List.range (schedOf employees t).length).map (fun i => b2i (sol.x i s.id))).sum
      + sol.shortage s.id = s.required) ∧
  (∀ i, (hi : i < (schedOf employees t).length) →
    (slots.map (fun s => (s.stop - s.start) * b2i (sol.x i s.id))).sum
      ≤ maxHours ((schedOf employees t).get ⟨i, hi⟩)) ∧
  (∀ i, i < (schedOf employees t).length →
    ∀ a, (ha : a < slots.length) → ∀ b, (hb : b < slots.length) → a < b →
    slots_overlap (slots.get ⟨a, ha⟩) (slots.get ⟨b, hb⟩) = true →
    b2i (sol.x i (slots.get ⟨a, ha⟩).id) + b2i (sol.x i (slots.get ⟨b, hb⟩).id) ≤ 1) ∧
  (∀ i, i < (schedOf employees t).length → ∀ d ∈ daysOf slots,
    (((slots.filter (fun s => s.day == d)).map
        (fun s => (s.stop - s.start) * b2i (sol.x i s.id))).sum) ≤ maxDaily) ∧
  (∀ i, i < (schedOf employees t).length → ∀ s ∈ slots,
    b2i (sol.x i s.id) ≤ b2i (sol.labInd i s.sect)) ∧
  (∀ i, i < (schedOf employees t).length →
    ((uniqueLabs slots).map (fun l => b2i (sol.labInd i l))).sum ≤ maxLabs)

/-- One row of the slot coverage report built after solving. -/
structure SlotRow where
  sect : String
  day : String
  startTime : Int
  endTime : Int
  duration : Int
  tasAssigned : List String
  assignedCount : Nat
  requiredCount : Int
  needed : Int
  deriving DecidableEq, Repr

/-- The slot coverage report: one row per slot, with the TAs whose
assignment variable is true collected in `sched` order. -/
def slotResults (sched : List String) (slots : List Slot) (sol : Solution) : List SlotRow :=
  slots.map (fun s =>
    let assigned := ((sched.enum).filter (fun p => sol.x p.1 s.id)).map (fun p => p.2)
    { sect := s.sect
      day := s.day
      startTime := s.start
      endTime := s.stop
      duration := s.stop - s.start
      tasAssigned := assigned
      assignedCount := assigned.length
      requiredCount := s.required
      needed := sol.shortage s.id })

/-- One row of the TA workload report. -/
structure TARow where
  name : String
  hoursAssigned : Int
  remaining : Int
  hiredFor : Int
  dailyBreakdown : List (String × Int)
  labsAssigned : List (String × String × Int × Int)
  deriving DecidableEq, Repr

/-- The report row for scheduled TA number `i` named `name`: total assigned
hours, remaining hours against `max_hours.get(name, 0)`, the per-day
breakdown and the assigned (section, day, start, end) details. -/
def taRow (maxHours : String → Int) (slots : List Slot) (sol : Solution)
    (i : Nat) (name : String) : TARow :=
  let mine := slots.filter (fun s => sol.x i s.id)
  let total := (mine.map (fun s => s.stop - s.start)).sum
  { name := name
    hoursAssigned := total
    remaining := maxHours name - total
    hiredFor := maxHours name
    dailyBreakdown := ((mine.map (fun s => s.day)).dedup).map (fun d =>
      (d, ((mine.filter (fun s => s.day == d)).map (fun s => s.stop - s.start)).sum))
    labsAssigned := mine.map (fun s => (s.sect, s.day, s.start, s.stop)) }

/-- The TA report: scheduled TAs in order, then every roster TA without a
response row appended with zero hours and the full hired amount
remaining. -/
def taResults (employees : List String) (t : RespTable) (maxHours : String → Int)
    (slots : List Slot) (sol : Solution) : List TARow :=
  ((schedOf employees t).enum).map (fun p => taRow maxHours slots sol p.1 p.2)
    ++ (employees.filter (fun e => !((schedOf employees t).contains e))).map (fun name =>
        { name := name
          hoursAssigned := 0
          remaining := maxHours name
          hiredFor := maxHours name
          dailyBreakdown := []
          labsAssigned := [] })

/-- Embeds `scheduler.solve_schedule` around the backend call: the two
fatal guards run first, before any model construction; the result
interpretation is a pure projection of the returned backend variable
values `sol`. -/
def solve_schedule (employees : List String) (t : RespTable) (maxHours : String → Int)
    (slots : List Slot) (sol : Solution) : Except String (List SlotRow × List TARow) :=
  if (schedOf employees t).isEmpty then
    .error "No employees with valid availability data."
  else if slots.isEmpty then
    .error "No slots to schedule."
  else
    .ok (slotResults (schedOf employees t) slots sol,
         taResults employees t maxHours slots sol)

/-- The ASCII single-quote character, written by code point. -/
def sq : String := String.singleton (Char.ofNat 39)

/-- The schema error raised by `parse_responses` when the `Name` column is
absent. -/
def nameColumnMissingMsg : String :=
  sq ++ "Name" ++ sq ++ " column missing in responses."

/-- The schema error raised by `parse_max_hours` for a missing structural
column; `rest` stands for the printed column set. -/
def maxFileSchemaMsg (p rest : String) : String :=
  sq ++ p ++ sq ++ " must contain columns: " ++ rest

/-- The schema error raised by `parse_requirements` for a missing
structural column; `rest` stands for the printed column set. -/
def reqFileSchemaMsg (p rest : String) : String :=
  sq ++ p ++ sq ++ " missing columns: " ++ rest

/-- The fatal message raised by the guards at the top of `solve_schedule`:
the first guard fires when no employee has a response row, the second when
the slot list is empty. -/
def guardError (employees : List String) (t : RespTable) : String :=
  if (schedOf employees t).isEmpty then "No employees with valid availability data."
  else "No slots to schedule."

/-! ### Helper lemmas -/

theorem sum_b2i_filter {α : Type} (L : List α) (f : α → Bool) :
    (L.map (fun a => b2i (f a))).sum = ((L.filter f).length : Int) := by
  induction L with
  | nil => simp
  | cons a t ih =>
    simp only [List.map_cons, List.sum_cons, List.filter_cons, ih]
    cases h : f a
    · simp [h, b2i]
    · simp [h, b2i]
      omega

theorem sum_map_mul_b2i {α : Type} (L : List α) (g : α → Int) (p : α → Bool) :
    (L.map (fun a => g a * b2i (p a))).sum = ((L.filter p).map g).sum := by
  induction L with
  | nil => rfl
  | cons a t ih =>
    simp only [List.map_cons, List.sum_cons, List.filter_cons, ih]
    cases h : p a <;> simp [h, b2i]

theorem length_filter_enum {α : Type} (l : List α) (f : Nat → Bool) :
    (l.enum.filter (fun p => f p.1)).length = ((List.range l.length).filter f).length := by
  rw [← List.enum_map_fst l, List.filter_map, List.length_map]
  rfl

theorem slots_overlap_symm (s1 s2 : Slot) : slots_overlap s1 s2 = slots_overlap s2 s1 := by
  unfold slots_overlap
  rcases eq_or_ne s1.day s2.day with h | h
  · simp [h, Bool.and_comm]
  · simp [h, Ne.symm h]

theorem ne_of_head {s t : String} {c d : Char} (hs : s.data.head? = some c)
    (ht : t.data.head? = some d) (hcd : c ≠ d) : s ≠ t := by
  intro he
  rw [he, ht] at hs
  exact hcd (Option.some.inj hs).symm

theorem nameColumnMissingMsg_head :
    nameColumnMissingMsg.data.head? = some (Char.ofNat 39) := by
  simp [nameColumnMissingMsg, sq, String.singleton, String.data_append]

theorem maxFileSchemaMsg_head (p rest : String) :
    (maxFileSchemaMsg p rest).data.head? = some (Char.ofNat 39) := by
  simp [maxFileSchemaMsg, sq, String.singleton, String.data_append]

theorem reqFileSchemaMsg_head (p rest : String) :
    (reqFileSchemaMsg p rest).data.head? = some (Char.ofNat 39) := by
  simp [reqFileSchemaMsg, sq, String.singleton, String.data_append]

theorem guardError_head (employees : List String) (t : RespTable) :
    (guardError employees t).data.head? = some (Char.ofNat 78) := by
  unfold guardError
  by_cases h : (schedOf employees t).isEmpty <;> simp [h]

/-! ### Claim theorems -/

/-- The leading digit characters of a 12-hour label (everything before the
two-character meridiem suffix), read back as a number. -/
def labelHourPart (s : String) : Nat :=
  digitsToNat (s.data.take (s.data.length - 2)) 0

/-- The two-character meridiem suffix of a 12-hour label. -/
def labelMeridiem (s : String) : String :=
  ⟨s.data.drop (s.data.length - 2)⟩

/-- C9: for every integer hour 0–23, rendering it as a 12-hour label with
`convert_24_to_12_hour` and parsing that label back with `convert_hour`
(the leading digits converted to a number, the trailing meridiem suffix as
the AM/PM flag — the standard 12-hour wrap) recovers the original hour. -/
theorem hour_label_round_trip :
    ∀ h : Nat, h < 24 →
      convert_hour ((labelHourPart (convert_24_to_12_hour (h : Int)) : Nat) : Int)
        (labelMeridiem (convert_24_to_12_hour (h : Int))) = (h : Int) := by
  decide

theorem hour_label_round_trip_witness :
    13 < 24 ∧
      convert_hour ((labelHourPart (convert_24_to_12_hour (13 : Int)) : Nat) : Int)
        (labelMeridiem (convert_24_to_12_hour (13 : Int))) = (13 : Int) :=
  ⟨by decide, hour_label_round_trip 13 (by decide)⟩

/-- C10: in `is_available`, an hour of the span whose 12-hour range label
matches no response column is available by default, so a TA with a response
row is judged available for a slot lying wholly outside the surveyed hour
windows. -/
theorem unsurveyed_hours_default_available (t : RespTable) (ta day : String)
    (row : RespRow) (s e : Int)
    (hrow : t.rows.find? (fun r => r.name == ta) = some row)
    (hnone : ∀ h ∈ hoursInSpan s e,
      t.cols.find? (fun col => strIn (hourTarget h) (stripWS col)) = none) :
    is_available ta day s e t = true := by
  unfold is_available
  rw [hrow]
  show (hoursInSpan s e).all (fun h => hourAvailable t.cols row day h) = true
  rw [List.all_eq_true]
  intro h hm
  unfold hourAvailable
  rw [hnone h hm]

/-- C7: if no roster TA has a response row, or the slot list is empty,
`solve_schedule` fails with its guard message, whatever the backend would
have answered, and that message differs from every schema-error message. -/
theorem no_schedulable_data_guard (employees : List String) (t : RespTable)
    (maxHours : String → Int) (slots : List Slot) (sol : Solution)
    (h : schedOf employees t = [] ∨ slots = []) :
    solve_schedule employees t maxHours slots sol = .error (guardError employees t) ∧
    guardError employees t ≠ nameColumnMissingMsg ∧
    (∀ p rest, guardError employees t ≠ maxFileSchemaMsg p rest) ∧
    (∀ p rest, guardError employees t ≠ reqFileSchemaMsg p rest) := by
  refine ⟨?_, ?_, ?_, ?_⟩
  · unfold solve_schedule guardError
    rcases h with h | h
    · simp [h]
    · by_cases h1 : (schedOf employees t).isEmpty <;> simp [h1, h]
  · exact ne_of_head (guardError_head employees t) nameColumnMissingMsg_head (by decide)
  · intro p rest
    exact ne_of_head (guardError_head employees t) (maxFileSchemaMsg_head p rest) (by decide)
  · intro p rest
    exact ne_of_head (guardError_head employees t) (reqFileSchemaMsg_head p rest) (by decide)

/-- C1: every row of the slot report of `solve_schedule`, for a solution
the backend accepted as optimal or feasible (so it satisfies every model
constraint), has Assigned Count plus Needed equal to Required Count. -/
theorem slot_report_balance (employees : List String) (t : RespTable)
    (maxHours : String → Int) (slots : List Slot) (maxDaily maxLabs : Int)
    (sol : Solution) (sr : List SlotRow) (tr : List TARow)
    (hv : ValidSolution employees t maxHours slots maxDaily maxLabs sol)
    (hok : solve_schedule employees t maxHours slots sol = .ok (sr, tr)) :
    ∀ r ∈ sr, (r.assignedCount : Int) + r.needed = r.requiredCount := by
  unfold solve_schedule at hok
  by_cases h1 : (schedOf employees t).isEmpty
  · simp [h1] at hok
  by_cases h2 : slots.isEmpty
  · simp [h1, h2] at hok
  simp only [h1, h2, if_false, Bool.false_eq_true, Except.ok.injEq, Prod.mk.injEq] at hok
  obtain ⟨hsr, _⟩ := hok
  subst hsr
  intro r hr
  unfold slotResults at hr
  rw [List.mem_map] at hr
  obtain ⟨s, hs, rfl⟩ := hr
  show (((((schedOf employees t).enum.filter
      (fun p => sol.x p.1 s.id)).map (fun p => p.2)).length : Int))
      + sol.shortage s.id = s.required
  rw [List.length_map]
  have heq : (List.filter (fun p => sol.x p.1 s.id) (schedOf employees t).enum).length
      = ((List.range (schedOf employees t).length).filter (fun i => sol.x i s.id)).length :=
    length_filter_enum (schedOf employees t) (fun i => sol.x i s.id)
  rw [heq, ← sum_b2i_filter]
  exact hv.2.2.1 s hs

/-- C2: for every scheduled TA, the reported total of assigned slot
durations is at most that TA hired-hours entry, in any solution satisfying
the model constraints. -/
theorem ta_hours_within_hired (employees : List String) (t : RespTable)
    (maxHours : String → Int) (slots : List Slot) (maxDaily maxLabs : Int)
    (sol : Solution)
    (hv : ValidSolution employees t maxHours slots maxDaily maxLabs sol) :
    ∀ i, (hi : i < (schedOf employees t).length) →
      (taRow maxHours slots sol i ((schedOf employees t).get ⟨i, hi⟩)).hoursAssigned
        ≤ maxHours ((schedOf employees t).get ⟨i, hi⟩) := by
  intro i hi
  have h := hv.2.2.2.1 i hi
  rw [sum_map_mul_b2i] at h
  exact h

/-- C3: in any solution satisfying the model constraints, no TA is
assigned to both slots of a pair of distinct slots that lie on the same
day with intersecting time ranges (the `slots_overlap` test). -/
theorem no_double_overlap_assignment (employees : List String) (t : RespTable)
    (maxHours : String → Int) (slots : List Slot) (maxDaily maxLabs : Int)
    (sol : Solution)
    (hv : ValidSolution employees t maxHours slots maxDaily maxLabs sol) :
    ∀ i, i < (schedOf employees t).length →
    ∀ a, (ha : a < slots.length) → ∀ b, (hb : b < slots.length) → a ≠ b →
    slots_overlap (slots.get ⟨a, ha⟩) (slots.get ⟨b, hb⟩) = true →
    ¬(sol.x i (slots.get ⟨a, ha⟩).id = true ∧
      sol.x i (slots.get ⟨b, hb⟩).id = true) := by
  intro i hi a ha b hb hne hov hxx
  obtain ⟨hxa, hxb⟩ := hxx
  rcases lt_or_gt_of_ne hne with hab | hba
  · have h := hv.2.2.2.2.1 i hi a ha b hb hab hov
    rw [hxa, hxb] at h
    simp [b2i] at h
  · have hov2 : slots_overlap (slots.get ⟨b, hb⟩) (slots.get ⟨a, ha⟩) = true := by
      rw [slots_overlap_symm]
      exact hov
    have h := hv.2.2.2.2.1 i hi b hb a ha hba hov2
    rw [hxa, hxb] at h
    simp [b2i] at h

/-- C4: in any solution satisfying the model constraints, the number of
distinct section values among the slots assigned to a TA is at most the
`max_labs_per_ta` cap (default `MAX_LABS_PER_TA = 3`); moreover the
per-(TA, section) indicator variable is forced to 1 whenever any slot of
that section is assigned to that TA. -/
theorem distinct_labs_capped (employees : List String) (t : RespTable)
    (maxHours : String → Int) (slots : List Slot) (maxDaily maxLabs : Int)
    (sol : Solution)
    (hv : ValidSolution employees t maxHours slots maxDaily maxLabs sol) :
    ∀ i, i < (schedOf employees t).length →
      ((((((slots.filter (fun s => sol.x i s.id)).map
          (fun s => s.sect)).dedup).length : Int) ≤ maxLabs) ∧
       (∀ s ∈ slots, sol.x i s.id = true → sol.labInd i s.sect = true)) := by
  intro i hi
  have hforce : ∀ s ∈ slots, sol.x i s.id = true → sol.labInd i s.sect = true := by
    intro s hs hx
    have h7 := hv.2.2.2.2.2.2.1 i hi s hs
    rw [hx] at h7
    cases hli : sol.labInd i s.sect
    · rw [hli] at h7
      simp [b2i] at h7
    · rfl
  refine ⟨?_, hforce⟩
  have hnodup : (((slots.filter (fun s => sol.x i s.id)).map
      (fun s => s.sect)).dedup).Nodup := List.nodup_dedup _
  have hsub : (((slots.filter (fun s => sol.x i s.id)).map (fun s => s.sect)).dedup)
      ⊆ (uniqueLabs slots).filter (fun l => sol.labInd i l) := by
    intro a hA
    rw [List.mem_dedup, List.mem_map] at hA
    obtain ⟨s, hsf, rfl⟩ := hA
    rw [List.mem_filter] at hsf
    obtain ⟨hss, hxs⟩ := hsf
    rw [List.mem_filter]
    constructor
    · unfold uniqueLabs
      rw [List.mem_dedup, List.mem_map]
      exact ⟨s, hss, rfl⟩
    · exact hforce s hss hxs
  have hlen := (List.Nodup.subperm hnodup hsub).length_le
  have h8 := hv.2.2.2.2.2.2.2 i hi
  rw [sum_b2i_filter] at h8
  calc ((((slots.filter (fun s => sol.x i s.id)).map (fun s => s.sect)).dedup).length : Int)
      ≤ (((uniqueLabs slots).filter (fun l => sol.labInd i l)).length : Int) :=
        Int.ofNat_le.mpr hlen
    _ ≤ maxLabs := h8

/-- C5: in any solution satisfying the model constraints, the assignment
variable of a (TA, slot) pair is false whenever any single constituent
hour of the slot span is unavailable for that TA on the slot day —
the availability conjunction ranges over every hour of the span, not a
coarse same-day test. -/
theorem unavailable_hour_forces_unassigned (employees : List String) (t : RespTable)
    (maxHours : String → Int) (slots : List Slot) (maxDaily maxLabs : Int)
    (sol : Solution)
    (hv : ValidSolution employees t maxHours slots maxDaily maxLabs sol) :
    ∀ i, (hi : i < (schedOf employees t).length) → ∀ s ∈ slots, ∀ row : RespRow,
      t.rows.find? (fun r => r.name == (schedOf employees t).get ⟨i, hi⟩) = some row →
      ∀ h ∈ hoursInSpan s.start s.stop,
        hourAvailable t.cols row s.day h = false →
        sol.x i s.id = false := by
  intro i hi s hs row hrow h hh hbad
  apply hv.1 i hi s hs
  unfold is_available
  rw [hrow]
  show (hoursInSpan s.start s.stop).all (fun h => hourAvailable t.cols row s.day h) = false
  rw [List.all_eq_false]
  exact ⟨h, hh, by simp [hbad]⟩

theorem parseReqGo_spec (rows : List ReqRow) : ∀ idx : Nat,
    (rows.all rowConvertible = true →
      parseReqGo idx rows
        = .ok (((rows.enumFrom idx).filter (fun p => rowKept p.2)).map
            (fun p => rowToSlot p.1 p.2))) ∧
    (rows.all rowConvertible = false →
      parseReqGo idx rows = .error "invalid literal for int") := by
  induction rows with
  | nil =>
    intro idx
    constructor
    · intro _
      rfl
    · intro h
      simp at h
  | cons r rest ih =>
    intro idx
    constructor
    · intro hall
      rw [List.all_cons] at hall
      obtain ⟨hr, hrest⟩ := Bool.and_eq_true_iff.mp hall
      unfold parseReqGo
      cases hc : pvalToInt r.required with
      | none =>
        unfold rowConvertible at hr
        rw [hc] at hr
        simp at hr
      | some req =>
        have hkept : rowKept r
            = (req != 0 && r.start.isNum && r.stop.isNum && r.start.ltb r.stop) := by
          unfold rowKept
          rw [hc]
        cases hz : (req == 0) with
        | true =>
          have hknot : rowKept r = false := by
            rw [hkept]
            simp [bne, hz]
          simp only [hz, if_true]
          rw [(ih (idx + 1)).1 hrest]
          show _ = Except.ok (List.map _ (List.filter _ ((idx, r) :: rest.enumFrom (idx + 1))))
          rw [List.filter_cons]
          simp [hknot]
        | false =>
          cases hg : (r.start.isNum && r.stop.isNum && r.start.ltb r.stop) with
          | true =>
            have hkyes : rowKept r = true := by
              rw [hkept]
              obtain ⟨hAB, hC⟩ := Bool.and_eq_true_iff.mp hg
              obtain ⟨hA, hB⟩ := Bool.and_eq_true_iff.mp hAB
              simp [bne, hz, hA, hB, hC]
            simp only [hz, if_false, hg, Bool.not_true, Bool.false_eq_true]
            rw [(ih (idx + 1)).1 hrest]
            show _ = Except.ok (List.map _ (List.filter _ ((idx, r) :: rest.enumFrom (idx + 1))))
            rw [List.filter_cons]
            simp only [hkyes, if_true]
            rw [List.map_cons]
            have hslot : rowToSlot idx r
                = ⟨idx, r.sect, r.day, r.start.toNum, r.stop.toNum, req⟩ := by
              unfold rowToSlot
              rw [hc]
              rfl
            rw [hslot]
          | false =>
            have hknot : rowKept r = false := by
              rw [hkept]
              simp only [Bool.and_assoc] at hg ⊢
              rw [hg, Bool.and_false]
            simp only [hz, if_false, hg, Bool.not_false, Bool.false_eq_true]
            rw [(ih (idx + 1)).1 hrest]
            show _ = Except.ok (List.map _ (List.filter _ ((idx, r) :: rest.enumFrom (idx + 1))))
            rw [List.filter_cons]
            simp [hknot]
    · intro hall
      rw [List.all_cons] at hall
      unfold parseReqGo
      cases hc : pvalToInt r.required with
      | none => rfl
      | some req =>
        have hr : rowConvertible r = true := by
          unfold rowConvertible
          rw [hc]
          rfl
        rw [hr, Bool.true_and] at hall
        have herr := (ih (idx + 1)).2 hall
        cases hz : (req == 0) with
        | true =>
          simp only [hz, if_true]
          exact herr
        | false =>
          cases hg : (r.start.isNum && r.stop.isNum && r.start.ltb r.stop) with
          | true =>
            simp only [hz, if_false, hg, Bool.not_true, Bool.false_eq_true]
            rw [herr]
          | false =>
            simp only [hz, if_false, hg, Bool.not_false, Bool.false_eq_true]
            exact herr

/-- C6, amended: `parse_requirements` keeps a row as a slot iff
`int(Required)` evaluates and is nonzero, and start and end are numeric
with start < end (`rowKept`); rows failing the numeric/order test or with
a zero requirement are skipped; but a row whose Required cell does not
convert to an integer raises an error that aborts the parse, and rows with
a negative requirement are kept. -/
theorem parse_requirements_row_policy (rows : List ReqRow) :
    (rows.all rowConvertible = true →
      parse_requirements rows
        = .ok (((rows.enum).filter (fun p => rowKept p.2)).map
            (fun p => rowToSlot p.1 p.2))) ∧
    (rows.all rowConvertible = false →
      parse_requirements rows = .error "invalid literal for int") :=
  parseReqGo_spec rows 0

/-- Rows exercising the keep policy: a zero-requirement row (skipped), a
non-numeric end time (skipped), and a valid row (kept). -/
def rowsEx : List ReqRow :=
  [⟨"Mon", .num 9, .num 11, .num 0, "L1"⟩,
   ⟨"Tue", .num 9, .str "x", .num 2, "L2"⟩,
   ⟨"Wed", .num 9, .num 11, .num 2, "L3"⟩]

theorem parse_requirements_row_policy_witness :
    rowsEx.all rowConvertible = true ∧
    parse_requirements rowsEx
      = .ok (((rowsEx.enum).filter (fun p => rowKept p.2)).map
          (fun p => rowToSlot p.1 p.2)) :=
  ⟨by decide, (parse_requirements_row_policy rowsEx).1 (by decide)⟩

/-- C6 refutation: a row with `Required = -1` (not `> 0`) passes the
filter and is kept as a slot, and a row whose Required cell is the
non-numeric string "abc" makes the parse raise instead of skipping. -/
theorem negative_required_kept_and_bad_required_raises :
    parse_requirements [⟨"Mon", .num 9, .num 11, .num (-1), "L1"⟩]
        = .ok [⟨0, "L1", "Mon", 9, 11, -1⟩] ∧
    ¬((-1 : Int) > 0) ∧
    parse_requirements [⟨"Mon", .num 9, .num 11, .str "abc", "L1"⟩]
        = .error "invalid literal for int" :=
  ⟨rfl, by decide, rfl⟩

/-- C8: every roster TA without a response row (hence excluded from
`sched` and granted no assignment variable) still appears in the TA report
with zero hours assigned and the full hired amount remaining. -/
theorem missing_ta_reported (employees : List String) (t : RespTable)
    (maxHours : String → Int) (slots : List Slot) (sol : Solution)
    (sr : List SlotRow) (tr : List TARow)
    (hok : solve_schedule employees t maxHours slots sol = .ok (sr, tr))
    (ta : String) (hmem : ta ∈ employees)
    (hnorow : (t.rows.map (fun r => r.name)).contains ta = false) :
    (⟨ta, 0, maxHours ta, maxHours ta, [], []⟩ : TARow) ∈ tr := by
  unfold solve_schedule at hok
  by_cases h1 : (schedOf employees t).isEmpty
  · simp [h1] at hok
  by_cases h2 : slots.isEmpty
  · simp [h1, h2] at hok
  simp only [h1, h2, if_false, Bool.false_eq_true, Except.ok.injEq, Prod.mk.injEq] at hok
  obtain ⟨_, htr⟩ := hok
  subst htr
  unfold taResults
  apply List.mem_append_right
  rw [List.mem_map]
  refine ⟨ta, ?_, rfl⟩
  rw [List.mem_filter]
  refine ⟨hmem, ?_⟩
  rw [Bool.not_eq_eq_eq_not, Bool.not_true]
  by_contra hcon
  have hmemsched : ta ∈ schedOf employees t := by
    have : (schedOf employees t).contains ta = true := by
      cases hcase : (schedOf employees t).contains ta
      · exact absurd hcase hcon
      · rfl
    exact List.elem_iff.mp this
  unfold schedOf at hmemsched
  rw [List.mem_filter] at hmemsched
  rw [hmemsched.2] at hnorow
  simp at hnorow

/-! ### Concrete evaluation data for the witnesses -/

/-- A response row for TA "A": unavailable Monday and Tuesday 8–9am,
available 9–10am. -/
def rowA : RespRow :=
  ⟨"A", [(" [8am to 9am]", some "Mon, Tue"), (" [9am to 10am]", none)]⟩

/-- A concrete responses table holding only `rowA`. -/
def respT : RespTable :=
  ⟨["Name", " [8am to 9am]", " [9am to 10am]"], [rowA]⟩

/-- Two overlapping Monday slots. -/
def slotsW : List Slot :=
  [⟨0, "L1", "Mon", 9, 10, 1⟩, ⟨1, "L1", "Mon", 9, 11, 1⟩]

/-- A backend answer for `slotsW`: TA 0 takes slot 0, slot 1 is short by
one. -/
def solW : Solution :=
  ⟨fun i s => i == 0 && s == 0, fun s => if s == 0 then 0 else 1, fun _ _ => true⟩

theorem validW : ValidSolution ["A"] respT (fun _ => 4) slotsW 4 3 solW := by
  unfold ValidSolution
  decide

/-- One two-hour Monday slot starting at the hour TA "A" is unavailable. -/
def slotsV : List Slot := [⟨0, "L2", "Mon", 8, 10, 1⟩]

/-- A backend answer for `slotsV`: nobody assigned, full shortage. -/
def solV : Solution := ⟨fun _ _ => false, fun _ => 1, fun _ _ => false⟩

theorem validV : ValidSolution ["A"] respT (fun _ => 4) slotsV 4 3 solV := by
  unfold ValidSolution
  decide

/-- The first row of the slot report of `solW` on `slotsW`. -/
def slotRowW : SlotRow := ⟨"L1", "Mon", 9, 10, 1, ["A"], 1, 1, 0⟩

/-- A responses table with no rows at all. -/
def emptyT : RespTable := ⟨["Name"], []⟩

/-! ### Witnesses -/

theorem slot_report_balance_witness :
    (slotRowW.assignedCount : Int) + slotRowW.needed = slotRowW.requiredCount :=
  slot_report_balance ["A"] respT (fun _ => 4) slotsW 4 3 solW
    (slotResults (schedOf ["A"] respT) slotsW solW)
    (taResults ["A"] respT (fun _ => 4) slotsW solW) validW rfl slotRowW (by decide)

theorem ta_hours_within_hired_witness :
    (taRow (fun _ => 4) slotsW solW 0 "A").hoursAssigned ≤ (4 : Int) :=
  ta_hours_within_hired ["A"] respT (fun _ => 4) slotsW 4 3 solW validW 0 (by decide)

theorem no_double_overlap_assignment_witness :
    ¬(solW.x 0 0 = true ∧ solW.x 0 1 = true) :=
  no_double_overlap_assignment ["A"] respT (fun _ => 4) slotsW 4 3 solW validW
    0 (by decide) 0 (by decide) 1 (by decide) (by decide) (by decide)

theorem distinct_labs_capped_witness :
    ((((slotsW.filter (fun s => solW.x 0 s.id)).map (fun s => s.sect)).dedup).length : Int)
      ≤ 3 :=
  (distinct_labs_capped ["A"] respT (fun _ => 4) slotsW 4 3 solW validW 0 (by decide)).1

theorem unavailable_hour_forces_unassigned_witness : solV.x 0 0 = false :=
  unavailable_hour_forces_unassigned ["A"] respT (fun _ => 4) slotsV 4 3 solV validV
    0 (by decide) ⟨0, "L2", "Mon", 8, 10, 1⟩ (by decide) rowA rfl 8 (by decide) (by decide)

theorem no_schedulable_data_guard_witness :
    solve_schedule ["A"] emptyT (fun _ => 0) slotsW solW
        = .error (guardError ["A"] emptyT) ∧
    guardError ["A"] emptyT ≠ nameColumnMissingMsg ∧
    guardError ["A"] emptyT ≠ maxFileSchemaMsg "f" "c" ∧
    guardError ["A"] emptyT ≠ reqFileSchemaMsg "f" "c" := by
  obtain ⟨h1, h2, h3, h4⟩ :=
    no_schedulable_data_guard ["A"] emptyT (fun _ => 0) slotsW solW (Or.inl rfl)
  exact ⟨h1, h2, h3 "f" "c", h4 "f" "c"⟩

theorem missing_ta_reported_witness :
    (⟨"B", 0, 4, 4, [], []⟩ : TARow)
      ∈ taResults ["A", "B"] respT (fun _ => 4) slotsW solW :=
  missing_ta_reported ["A", "B"] respT (fun _ => 4) slotsW solW
    (slotResults (schedOf ["A", "B"] respT) slotsW solW)
    (taResults ["A", "B"] respT (fun _ => 4) slotsW solW) rfl "B" (by decide) (by decide)

theorem unsurveyed_hours_default_available_witness :
    is_available "A" "Mon" 5 7 respT = true :=
  unsurveyed_hours_default_available respT "A" "Mon" rowA 5 7 rfl (by decide)

end TASched
